import Mathlib

set_option linter.unusedVariables false
set_option linter.unnecessarySeqFocus false

/-! Shallow embedding of the event-sourced ledger in src/event-sourcing.py:
an append-only EventStore with snapshots, a CQRS split (CommandModel,
QueryModel, EntityStore) and a compensating TransferSaga.  Python dicts are
modelled as association lists with last-write-wins assignment, Python ints as
Int (amounts, balances) and Nat (account ids, versions), and exceptions as an
Except result paired with the state reached at the moment the exception
escapes (mutations performed before a raise are kept, as in Python). -/

/-- Kind of a stored event: the strings 'Deposit' and 'Withdrawal' used for
event.event_type in the source. -/
inductive EventType where
  | Deposit
  | Withdrawal
deriving DecidableEq

/-- Event(event_type, data, version): the payload dict data carries the keys
id (the aggregate id) and amount, inlined here as fields. -/
structure Event where
  event_type : EventType
  id : Nat
  amount : Int
  version : Nat
deriving DecidableEq

/-- Snapshot dict built by QueryModel.save_snapshot: keys balance and version. -/
structure Snapshot where
  balance : Int
  version : Nat
deriving DecidableEq

/-- AccountEntity(account_id, balance, version): the denormalized read model. -/
structure AccountEntity where
  account_id : Nat
  balance : Int
  version : Nat
deriving DecidableEq

/-- AccountAggregate: replay target with the fields set by its constructor
(balance 0, version 0) and mutated by apply_event. -/
structure AccountAggregate where
  account_id : Nat
  balance : Int
  version : Nat
deriving DecidableEq

/-- Python dict read d.get(k, None) on an association list. -/
def lookupA {α : Type} : List (Nat × α) → Nat → Option α
  | [], _ => none
  | (k', v) :: t, k => if k' = k then some v else lookupA t k

/-- Python dict assignment d[k] = v: overwrite the binding if the key is
present, otherwise append it (last-write-wins). -/
def insertA {α : Type} : List (Nat × α) → Nat → α → List (Nat × α)
  | [], k, v => [(k, v)]
  | (k', v') :: t, k, v =>
    if k' = k then (k, v) :: t else (k', v') :: insertA t k v

/-- Combined mutable state of the wired-up system: EventStore.events,
EventStore.snapshots, EntityStore.accounts and CommandModel.version_counter.
The source wires one instance of each store into every component. -/
structure SystemState where
  events : List Event
  snapshots : List (Nat × Snapshot)
  accounts : List (Nat × AccountEntity)
  version_counter : Nat
deriving DecidableEq

/-- EventStore.add_event: append to the end of the log. -/
def add_event (s : SystemState) (e : Event) : SystemState :=
  { s with events := s.events ++ [e] }

/-- Filter used by EventStore.get_events:
event.data['id'] == aggregate_id and event.version > after_version. -/
def matchesQuery (aggregate_id after_version : Nat) (e : Event) : Bool :=
  (e.id == aggregate_id) && decide (after_version < e.version)

/-- EventStore.get_events(aggregate_id, after_version): all events for the
aggregate with version strictly above after_version, in log order. -/
def get_events (s : SystemState) (aggregate_id after_version : Nat) : List Event :=
  s.events.filter (matchesQuery aggregate_id after_version)

/-- EventStore.get_snapshot: self.snapshots.get(aggregate_id, None). -/
def get_snapshot (s : SystemState) (aggregate_id : Nat) : Option Snapshot :=
  lookupA s.snapshots aggregate_id

/-- EventStore.save_snapshot: self.snapshots[aggregate_id] = snapshot. -/
def save_snapshot_store (s : SystemState) (aggregate_id : Nat) (snapshot : Snapshot) :
    SystemState :=
  { s with snapshots := insertA s.snapshots aggregate_id snapshot }

/-- EntityStore.update_entity: store AccountEntity(account_id, balance, version)
under account_id. -/
def update_entity (s : SystemState) (account_id : Nat) (balance : Int) (version : Nat) :
    SystemState :=
  { s with accounts := insertA s.accounts account_id ⟨account_id, balance, version⟩ }

/-- EntityStore.query_entity: self.accounts.get(account_id). -/
def query_entity (s : SystemState) (account_id : Nat) : Option AccountEntity :=
  lookupA s.accounts account_id

/-- AccountAggregate constructor: balance 0, version 0. -/
def AccountAggregate.init (account_id : Nat) : AccountAggregate :=
  ⟨account_id, 0, 0⟩

/-- AccountAggregate.apply_event: Deposit adds the amount, Withdrawal
subtracts it; the aggregate version is set to the event version in both
branches (the assignment after the if/elif in the source). -/
def apply_event (acc : AccountAggregate) (event : Event) : AccountAggregate :=
  match event.event_type with
  | EventType.Deposit =>
      { acc with balance := acc.balance + event.amount, version := event.version }
  | EventType.Withdrawal =>
      { acc with balance := acc.balance - event.amount, version := event.version }

/-- AccountAggregate.can_withdraw: self.balance >= amount. -/
def can_withdraw (acc : AccountAggregate) (amount : Int) : Bool :=
  decide (acc.balance ≥ amount)

/-- EventStore.get_snapshot as a state-passing read: it returns its value and
leaves the state untouched. -/
def get_snapshot_st (s : SystemState) (aggregate_id : Nat) :
    Option Snapshot × SystemState :=
  (get_snapshot s aggregate_id, s)

/-- EventStore.get_events as a state-passing read: a list comprehension over
the log, returning its value and leaving the state untouched. -/
def get_events_st (s : SystemState) (aggregate_id after_version : Nat) :
    List Event × SystemState :=
  (get_events s aggregate_id after_version, s)

/-- QueryModel.rebuild_aggregate with the state threaded through each store
access: fetch the snapshot, take its version (or 0), initialize a fresh
aggregate from it, fetch the events with version above the snapshot version
and fold them with apply_event.  The second component is the state after the
call. -/
def rebuild_aggregate_st (s : SystemState) (account_id : Nat) :
    AccountAggregate × SystemState :=
  let snapshotR := get_snapshot_st s account_id
  let snapshot := snapshotR.1
  let s1 := snapshotR.2
  let version : Nat :=
    match snapshot with
    | some sn => sn.version
    | none => 0
  let account : AccountAggregate :=
    match snapshot with
    | some sn => { account_id := account_id, balance := sn.balance, version := sn.version }
    | none => AccountAggregate.init account_id
  let eventsR := get_events_st s1 account_id version
  (eventsR.1.foldl apply_event account, eventsR.2)

/-- Value returned by QueryModel.rebuild_aggregate. -/
def rebuild_aggregate (s : SystemState) (account_id : Nat) : AccountAggregate :=
  (rebuild_aggregate_st s account_id).1

/-- QueryModel.save_snapshot: store the dict with the aggregate's balance and
version under its account id. -/
def save_snapshot (s : SystemState) (account : AccountAggregate) : SystemState :=
  save_snapshot_store s account.account_id ⟨account.balance, account.version⟩

/-- Command variants DepositCommand and WithdrawalCommand, each carrying the
account id and amount they were constructed with (the event store reference is
the shared system state). -/
inductive Command where
  | deposit (account_id : Nat) (amount : Int)
  | withdrawal (account_id : Nat) (amount : Int)
deriving DecidableEq

/-- Field command.account_id of either variant. -/
def Command.account_id : Command → Nat
  | Command.deposit a _ => a
  | Command.withdrawal a _ => a

/-- Field command.amount of either variant. -/
def Command.amount : Command → Int
  | Command.deposit _ n => n
  | Command.withdrawal _ n => n

/-- DepositCommand.execute and WithdrawalCommand.execute: build the forward
event at the given version and append it to the store. -/
def Command.execute : Command → Nat → SystemState → SystemState
  | Command.deposit account_id amount, version, s =>
      add_event s ⟨EventType.Deposit, account_id, amount, version⟩
  | Command.withdrawal account_id amount, version, s =>
      add_event s ⟨EventType.Withdrawal, account_id, amount, version⟩

/-- DepositCommand.undo and WithdrawalCommand.undo: build the inverse event at
the given version and append it to the store. -/
def Command.undo : Command → Nat → SystemState → SystemState
  | Command.deposit account_id amount, version, s =>
      add_event s ⟨EventType.Withdrawal, account_id, amount, version⟩
  | Command.withdrawal account_id amount, version, s =>
      add_event s ⟨EventType.Deposit, account_id, amount, version⟩

/-- Python exceptions that can escape the modelled operations:
InsufficientBalanceError, the NameError raised by the unbound name in
CommandModel.undo_command, and an arbitrary runtime exception raised by the
environment (indexed by a code so distinct failures are distinguishable). -/
inductive PyError where
  | insufficientBalance
  | nameError
  | otherError (code : Nat)
deriving DecidableEq

/-- Write phase shared by both branches of CommandModel.execute_command:
increment the version counter, invoke the command's forward effect with the
new version, rebuild the aggregate and update the read-model entity with the
rebuilt balance at the new counter value. -/
def execute_command_writes (s : SystemState) (command : Command) :
    Except PyError Unit × SystemState :=
  let vc := s.version_counter + 1
  let s1 := Command.execute command vc { s with version_counter := vc }
  let account := rebuild_aggregate s1 (Command.account_id command)
  (Except.ok (), update_entity s1 (Command.account_id command) account.balance vc)

/-- CommandModel.execute_command: when the command is a WithdrawalCommand,
rebuild the aggregate and check can_withdraw first, raising
InsufficientBalanceError before any mutation when the check fails; otherwise
perform the write phase. -/
def execute_command (s : SystemState) (command : Command) :
    Except PyError Unit × SystemState :=
  match command with
  | Command.withdrawal account_id amount =>
      let account := rebuild_aggregate s account_id
      if can_withdraw account amount then
        execute_command_writes s (Command.withdrawal account_id amount)
      else
        (Except.error PyError.insufficientBalance, s)
  | Command.deposit account_id amount =>
      execute_command_writes s (Command.deposit account_id amount)

/-- CommandModel.undo_command.  The source body is: increment the version
counter, invoke command.undo with the new version (appending the inverse
event), then call update_entity with account.balance — but the name account is
never bound inside this method, so evaluating account.balance raises NameError
after the append and before update_entity runs: the call always escapes with
an exception, never rebuilds, and never writes the entity store.  (When the
module runs as a script the name can accidentally resolve to the stale
module-level account variable of the example code; in the method's own scope,
and in any other calling context, it is unbound.  Spec section 9 records this
as a latent defect of the source.) -/
def undo_command (s : SystemState) (command : Command) :
    Except PyError Unit × SystemState :=
  let vc := s.version_counter + 1
  let s1 := Command.undo command vc { s with version_counter := vc }
  (Except.error PyError.nameError, s1)

/-- One TransferSaga step: self.command_model.execute_command(cmd) run under
the saga's except-Exception handler.  fault = some e injects an arbitrary
runtime exception e raised by the step before it performs any write (the one
organic failure of execute_command, InsufficientBalanceError, is likewise
raised before any write); fault = none runs the step exactly as coded. -/
def sagaStep (fault : Option PyError) (s : SystemState) (command : Command) :
    Except PyError Unit × SystemState :=
  match fault with
  | some e => (Except.error e, s)
  | none => execute_command s command

/-- TransferSaga.start_transfer with compensate_transfer inlined: build the
withdrawal and deposit commands, run the withdrawal step; on success record it
and run the deposit step; on any step failure walk the completed-steps list in
reverse calling undo_command on each entry, then re-raise the original error.
An exception escaping compensate_transfer pre-empts the re-raise, exactly as
in Python where the raise statement after the compensation call never runs. -/
def start_transfer (s : SystemState) (from_account_id to_account_id : Nat)
    (amount : Int) (withdrawFault depositFault : Option PyError) :
    Except PyError Unit × SystemState :=
  let withdrawal_command := Command.withdrawal from_account_id amount
  let deposit_command := Command.deposit to_account_id amount
  match sagaStep withdrawFault s withdrawal_command with
  | (Except.error e, s1) => (Except.error e, s1)
  | (Except.ok _, s1) =>
    match sagaStep depositFault s1 deposit_command with
    | (Except.error e, s2) =>
        match undo_command s2 withdrawal_command with
        | (Except.error e2, s3) => (Except.error e2, s3)
        | (Except.ok _, s3) => (Except.error e, s3)
    | (Except.ok _, s2) => (Except.ok (), s2)

/-- Version recorded in the snapshot for an account, or 0 when absent: the
baseline rebuild_aggregate starts folding from. -/
def snapVersion (s : SystemState) (account_id : Nat) : Nat :=
  match get_snapshot s account_id with
  | some sn => sn.version
  | none => 0

/-- Aggregate rebuild_aggregate starts from before folding events: the
snapshot contents when present, the freshly constructed aggregate otherwise. -/
def snapAggregate (s : SystemState) (account_id : Nat) : AccountAggregate :=
  match get_snapshot s account_id with
  | some sn => ⟨account_id, sn.balance, sn.version⟩
  | none => AccountAggregate.init account_id

/-- Signed contribution of one event to a balance: the amount for a Deposit,
its negation for a Withdrawal. -/
def eventNet (e : Event) : Int :=
  match e.event_type with
  | EventType.Deposit => e.amount
  | EventType.Withdrawal => -e.amount

/-- Sum of the signed contributions of a list of events. -/
def netSum (l : List Event) : Int :=
  (l.map eventNet).sum

/-- Signed contribution of one command to the balance of an account: its
amount when it deposits there, the negation when it withdraws there, 0 when it
targets another account. -/
def commandNet (c : Command) (a : Nat) : Int :=
  match c with
  | Command.deposit a' n => if a' = a then n else 0
  | Command.withdrawal a' n => if a' = a then -n else 0

/-- State of a freshly wired system: empty log, no snapshots, empty read
model, version counter 0. -/
def initState : SystemState :=
  ⟨[], [], [], 0⟩

/-- Submit a list of commands through CommandModel.execute_command in order;
a rejected command leaves the state as execute_command left it. -/
def runCommands (s : SystemState) : List Command → SystemState
  | [] => s
  | c :: cs => runCommands (execute_command s c).2 cs

/-- Subsequence of a command list accepted (no exception) by
CommandModel.execute_command when submitted in order from the given state. -/
def acceptedFrom (s : SystemState) : List Command → List Command
  | [] => []
  | c :: cs =>
    match execute_command s c with
    | (Except.ok _, s1) => c :: acceptedFrom s1 cs
    | (Except.error _, s1) => acceptedFrom s1 cs

/-- Sum of the amounts of the deposit commands of a list targeting a given
account. -/
def depositSum (cs : List Command) (account_id : Nat) : Int :=
  (cs.map (fun c =>
    match c with
    | Command.deposit a n => if a = account_id then n else 0
    | Command.withdrawal _ _ => 0)).sum

/-- Sum of the amounts of the withdrawal commands of a list targeting a given
account. -/
def withdrawalSum (cs : List Command) (account_id : Nat) : Int :=
  (cs.map (fun c =>
    match c with
    | Command.deposit _ _ => 0
    | Command.withdrawal a n => if a = account_id then n else 0)).sum

/-- Event built and appended by Command.execute: the forward effect. -/
def Command.forward_event : Command → Nat → Event
  | Command.deposit account_id amount, version =>
      ⟨EventType.Deposit, account_id, amount, version⟩
  | Command.withdrawal account_id amount, version =>
      ⟨EventType.Withdrawal, account_id, amount, version⟩

/-- Event built and appended by Command.undo: the compensating effect. -/
def Command.inverse_event : Command → Nat → Event
  | Command.deposit account_id amount, version =>
      ⟨EventType.Withdrawal, account_id, amount, version⟩
  | Command.withdrawal account_id amount, version =>
      ⟨EventType.Deposit, account_id, amount, version⟩

/-- Concrete state with one prior deposit of 100 into account 1, used to
instantiate saga executions on concrete inputs. -/
def sC2 : SystemState :=
  ⟨[⟨EventType.Deposit, 1, 100, 1⟩], [], [⟨1, 1, 100, 1⟩], 1⟩

/-- Concrete log whose two events for account 1 are out of version order
(version 2 first, version 1 second), allowed by the thin append-only store. -/
def sC6 : SystemState :=
  ⟨[⟨EventType.Deposit, 1, 5, 2⟩, ⟨EventType.Deposit, 1, 7, 1⟩], [], [], 2⟩

deriving instance DecidableEq for Except

/-! Basic lemmas about the embedding. -/

theorem Command.execute_eq_add_event (c : Command) (v : Nat) (s : SystemState) :
    Command.execute c v s = add_event s (Command.forward_event c v) := by
  cases c <;> rfl

theorem Command.undo_eq_add_event (c : Command) (v : Nat) (s : SystemState) :
    Command.undo c v s = add_event s (Command.inverse_event c v) := by
  cases c <;> rfl

theorem lookupA_insertA_self {α : Type} (l : List (Nat × α)) (k : Nat) (v : α) :
    lookupA (insertA l k v) k = some v := by
  induction l with
  | nil => simp [insertA, lookupA]
  | cons p t ih =>
    obtain ⟨k', v'⟩ := p
    by_cases h : k' = k
    · simp [insertA, h, lookupA]
    · simp [insertA, h, lookupA, ih]

theorem lookupA_insertA_ne {α : Type} (l : List (Nat × α)) (k k' : Nat) (v : α)
    (h : k ≠ k') : lookupA (insertA l k v) k' = lookupA l k' := by
  induction l with
  | nil => simp [insertA, lookupA, h]
  | cons p t ih =>
    obtain ⟨k0, v0⟩ := p
    by_cases h0 : k0 = k
    · subst h0
      simp [insertA, lookupA, h]
    · have h2 : ¬(k' = k) := fun hh => h hh.symm
      by_cases h1 : k0 = k'
      · simp [insertA, h0, lookupA, h1, h2]
      · simp [insertA, h0, lookupA, h1, h2, ih]

theorem matchesQuery_true {a after : Nat} {e : Event} :
    matchesQuery a after e = true ↔ e.id = a ∧ after < e.version := by
  simp [matchesQuery]

theorem rebuild_aggregate_spec (s : SystemState) (a : Nat) :
    rebuild_aggregate s a
      = (get_events s a (snapVersion s a)).foldl apply_event (snapAggregate s a) := by
  unfold rebuild_aggregate rebuild_aggregate_st get_snapshot_st get_events_st
    snapVersion snapAggregate
  cases h : get_snapshot s a <;> simp [h]

theorem apply_event_balance (acc : AccountAggregate) (e : Event) :
    (apply_event acc e).balance = acc.balance + eventNet e := by
  cases h : e.event_type <;> simp [apply_event, eventNet, h, sub_eq_add_neg]

theorem foldl_apply_event_balance (l : List Event) (acc : AccountAggregate) :
    (l.foldl apply_event acc).balance = acc.balance + netSum l := by
  induction l generalizing acc with
  | nil => simp [netSum]
  | cons e t ih =>
    simp [List.foldl_cons, ih, netSum, apply_event_balance]
    ring

theorem rebuild_aggregate_balance (s : SystemState) (a : Nat) :
    (rebuild_aggregate s a).balance
      = (snapAggregate s a).balance + netSum (get_events s a (snapVersion s a)) := by
  rw [rebuild_aggregate_spec]
  exact foldl_apply_event_balance _ _

/-- C7: rebuild_aggregate is a pure, deterministic read: the state after the
call equals the state before it (log, snapshots and entity store all
untouched), and calling it twice with no intervening writes returns
aggregates with identical balance and version. -/
theorem C7_rebuild_aggregate_pure_deterministic (s : SystemState) (a : Nat) :
    (rebuild_aggregate_st s a).2 = s
    ∧ (rebuild_aggregate_st (rebuild_aggregate_st s a).2 a).1.balance
        = (rebuild_aggregate_st s a).1.balance
    ∧ (rebuild_aggregate_st (rebuild_aggregate_st s a).2 a).1.version
        = (rebuild_aggregate_st s a).1.version :=
  ⟨rfl, rfl, rfl⟩

/-- C4: a withdrawal whose rebuilt balance is below its amount makes
execute_command raise InsufficientBalance and return the state completely
unchanged: no counter increment, no event appended, no snapshot change, no
entity write. -/
theorem C4_insufficient_balance_no_write (s : SystemState) (account_id : Nat)
    (amount : Int) (h : (rebuild_aggregate s account_id).balance < amount) :
    execute_command s (Command.withdrawal account_id amount)
      = (Except.error PyError.insufficientBalance, s) := by
  have hb : can_withdraw (rebuild_aggregate s account_id) amount = false := by
    simp [can_withdraw]
    omega
  simp [execute_command, hb]

/-- Witness for C4 at the empty initial state and a withdrawal of 5. -/
theorem C4_witness :
    (rebuild_aggregate initState 1).balance < 5
    ∧ execute_command initState (Command.withdrawal 1 5)
        = (Except.error PyError.insufficientBalance, initState) :=
  ⟨by decide, C4_insufficient_balance_no_write initState 1 5 (by decide)⟩

/-- C1: contrary to the claim, undo_command never returns normally on any
state and command: it increments the counter and appends the inverse event,
but then raises NameError from the unbound name account, so it never rebuilds
the aggregate and never updates the entity store (accounts and snapshots are
returned exactly as they were). -/
theorem C1_undo_command_raises (s : SystemState) (command : Command) :
    (undo_command s command).1 = Except.error PyError.nameError
    ∧ (undo_command s command).2.accounts = s.accounts
    ∧ (undo_command s command).2.snapshots = s.snapshots
    ∧ (undo_command s command).2.version_counter = s.version_counter + 1
    ∧ (undo_command s command).2.events
        = s.events ++ [Command.inverse_event command (s.version_counter + 1)] := by
  cases command <;>
    simp [undo_command, Command.undo, Command.inverse_event, add_event]

/-- C3: at a concrete transfer whose deposit step fails after a successful
withdrawal, compensation calls undo_command, whose NameError pre-empts the
re-raise of the original error: the saga surfaces nameError to its caller
instead of the deposit step's original error otherError 7. -/
theorem C3_saga_replaces_original_error :
    (start_transfer sC2 1 2 50 none (some (PyError.otherError 7))).1
        = Except.error PyError.nameError
    ∧ (start_transfer sC2 1 2 50 none (some (PyError.otherError 7))).1
        ≠ Except.error (PyError.otherError 7) := by
  decide

/-- C9: execute_command raises InsufficientBalance exactly for withdrawals
whose rebuilt balance is below the amount; a deposit of any amount (zero or
negative included) is accepted and its event appended with no sign or range
check; a negative deposit drives the rebuilt balance negative. -/
theorem C9_no_amount_validation :
    (∀ (s : SystemState) (c : Command),
        (execute_command s c).1 = Except.error PyError.insufficientBalance
          ↔ ∃ a n, c = Command.withdrawal a n ∧ (rebuild_aggregate s a).balance < n)
    ∧ (∀ (s : SystemState) (a : Nat) (n : Int),
        (execute_command s (Command.deposit a n)).1 = Except.ok ()
        ∧ (execute_command s (Command.deposit a n)).2.events
            = s.events ++ [⟨EventType.Deposit, a, n, s.version_counter + 1⟩])
    ∧ (rebuild_aggregate (execute_command initState (Command.deposit 1 (-5))).2 1).balance < 0 := by
  refine ⟨?_, ?_, by decide⟩
  · intro s c
    cases c with
    | deposit a n =>
      simp [execute_command, execute_command_writes]
    | withdrawal a n =>
      by_cases h : n ≤ (rebuild_aggregate s a).balance
      · have hb : can_withdraw (rebuild_aggregate s a) n = true := by
          simp [can_withdraw]
          omega
        simp only [execute_command, hb, if_true, execute_command_writes]
        constructor
        · intro hcontra
          exact absurd hcontra (by simp)
        · rintro ⟨a', n', he, hlt⟩
          cases he
          omega
      · have hb : can_withdraw (rebuild_aggregate s a) n = false := by
          simp [can_withdraw]
          omega
        simp only [execute_command, hb, Bool.false_eq_true, if_false]
        constructor
        · intro _
          exact ⟨a, n, rfl, by omega⟩
        · intro _
          trivial
  · intro s a n
    constructor
    · rfl
    · simp [execute_command, execute_command_writes, Command.execute, add_event,
        update_entity, Command.account_id]

theorem Command.forward_event_id (c : Command) (v : Nat) :
    (Command.forward_event c v).id = Command.account_id c := by
  cases c <;> rfl

theorem Command.inverse_event_id (c : Command) (v : Nat) :
    (Command.inverse_event c v).id = Command.account_id c := by
  cases c <;> rfl

theorem rebuild_add_event_ne {s s' : SystemState} {e : Event} {b : Nat}
    (hev : s'.events = s.events ++ [e]) (hsn : s'.snapshots = s.snapshots)
    (h : e.id ≠ b) :
    rebuild_aggregate s' b = rebuild_aggregate s b := by
  have hsnap : get_snapshot s' b = get_snapshot s b := by
    simp [get_snapshot, hsn]
  rw [rebuild_aggregate_spec, rebuild_aggregate_spec]
  have hv : snapVersion s' b = snapVersion s b := by
    simp [snapVersion, hsnap]
  have ha : snapAggregate s' b = snapAggregate s b := by
    simp [snapAggregate, hsnap]
  rw [hv, ha]
  congr 1
  simp [get_events, hev, List.filter_append, matchesQuery, h]

theorem execute_command_state (s : SystemState) (c : Command) :
    (execute_command s c).2 = s
    ∨ (execute_command s c).2
        = update_entity
            (add_event { s with version_counter := s.version_counter + 1 }
              (Command.forward_event c (s.version_counter + 1)))
            (Command.account_id c)
            (rebuild_aggregate
              (add_event { s with version_counter := s.version_counter + 1 }
                (Command.forward_event c (s.version_counter + 1)))
              (Command.account_id c)).balance
            (s.version_counter + 1) := by
  cases c with
  | deposit a n =>
    right
    simp [execute_command, execute_command_writes, Command.execute_eq_add_event]
  | withdrawal a n =>
    cases hcw : can_withdraw (rebuild_aggregate s a) n
    · left
      simp [execute_command, hcw]
    · right
      simp [execute_command, hcw, execute_command_writes, Command.execute_eq_add_event]

/-- C10: executing or undoing a command targeting one account leaves the
rebuilt aggregate, the stored snapshot and the entity-store entry of every
other account unchanged. -/
theorem C10_frame (s : SystemState) (c : Command) (b : Nat)
    (h : b ≠ Command.account_id c) :
    rebuild_aggregate (execute_command s c).2 b = rebuild_aggregate s b
    ∧ get_snapshot (execute_command s c).2 b = get_snapshot s b
    ∧ query_entity (execute_command s c).2 b = query_entity s b
    ∧ rebuild_aggregate (undo_command s c).2 b = rebuild_aggregate s b
    ∧ get_snapshot (undo_command s c).2 b = get_snapshot s b
    ∧ query_entity (undo_command s c).2 b = query_entity s b := by
  have hid : (Command.forward_event c (s.version_counter + 1)).id ≠ b := by
    rw [Command.forward_event_id]
    exact fun hh => h hh.symm
  have hid' : (Command.inverse_event c (s.version_counter + 1)).id ≠ b := by
    rw [Command.inverse_event_id]
    exact fun hh => h hh.symm
  have hacc : Command.account_id c ≠ b := fun hh => h hh.symm
  refine ⟨?_, ?_, ?_, ?_, ?_, ?_⟩
  · rcases execute_command_state s c with hs | hs
    · rw [hs]
    · rw [hs]
      exact rebuild_add_event_ne (by simp [update_entity, add_event])
        (by simp [update_entity, add_event]) hid
  · rcases execute_command_state s c with hs | hs
    · rw [hs]
    · rw [hs]
      simp [get_snapshot, update_entity, add_event]
  · rcases execute_command_state s c with hs | hs
    · rw [hs]
    · rw [hs]
      simp only [query_entity, update_entity, add_event]
      exact lookupA_insertA_ne _ _ _ _ hacc
  · exact rebuild_add_event_ne
      (by simp [undo_command, Command.undo_eq_add_event, add_event])
      (by simp [undo_command, Command.undo_eq_add_event, add_event]) hid'
  · simp [undo_command, Command.undo_eq_add_event, get_snapshot, add_event]
  · simp [undo_command, Command.undo_eq_add_event, query_entity, add_event]

/-- Witness for C10: a deposit into account 1 leaves account 2 untouched. -/
theorem C10_witness :
    (2 : Nat) ≠ Command.account_id (Command.deposit 1 5)
    ∧ (rebuild_aggregate (execute_command initState (Command.deposit 1 5)).2 2
          = rebuild_aggregate initState 2
       ∧ get_snapshot (execute_command initState (Command.deposit 1 5)).2 2
          = get_snapshot initState 2
       ∧ query_entity (execute_command initState (Command.deposit 1 5)).2 2
          = query_entity initState 2
       ∧ rebuild_aggregate (undo_command initState (Command.deposit 1 5)).2 2
          = rebuild_aggregate initState 2
       ∧ get_snapshot (undo_command initState (Command.deposit 1 5)).2 2
          = get_snapshot initState 2
       ∧ query_entity (undo_command initState (Command.deposit 1 5)).2 2
          = query_entity initState 2) :=
  ⟨by decide, C10_frame initState (Command.deposit 1 5) 2 (by decide)⟩

theorem rebuild_balance_append_two (s s' : SystemState) (e1 e2 : Event) (b : Nat)
    (hev : s'.events = s.events ++ [e1, e2]) (hsn : s'.snapshots = s.snapshots) :
    (rebuild_aggregate s' b).balance
      = (rebuild_aggregate s b).balance
        + netSum ([e1, e2].filter (matchesQuery b (snapVersion s b))) := by
  have hsnap : get_snapshot s' b = get_snapshot s b := by
    simp [get_snapshot, hsn]
  have hv : snapVersion s' b = snapVersion s b := by
    simp [snapVersion, hsnap]
  have ha : snapAggregate s' b = snapAggregate s b := by
    simp [snapAggregate, hsnap]
  rw [rebuild_aggregate_balance, rebuild_aggregate_balance, hv, ha]
  have hsplit : get_events s' b (snapVersion s b)
      = get_events s b (snapVersion s b)
        ++ [e1, e2].filter (matchesQuery b (snapVersion s b)) := by
    simp [get_events, hev, List.filter_append]
  rw [hsplit]
  simp [netSum]
  ring

/-- C8: at the command-variant level, execute with a version fresh above the
snapshot baseline followed by undo with a later version restores the rebuilt
balance of the account to its pre-execute value, for a DepositCommand and
symmetrically for a WithdrawalCommand. -/
theorem C8_undo_inverts (s : SystemState) (a : Nat) (n : Int) (v v' : Nat)
    (hv : snapVersion s a < v) (hv' : v < v') :
    (rebuild_aggregate
        (Command.undo (Command.deposit a n) v'
          (Command.execute (Command.deposit a n) v s)) a).balance
      = (rebuild_aggregate s a).balance
    ∧ (rebuild_aggregate
        (Command.undo (Command.withdrawal a n) v'
          (Command.execute (Command.withdrawal a n) v s)) a).balance
      = (rebuild_aggregate s a).balance := by
  have hvv' : snapVersion s a < v' := lt_trans hv hv'
  constructor
  · rw [rebuild_balance_append_two s
      (Command.undo (Command.deposit a n) v'
        (Command.execute (Command.deposit a n) v s))
      ⟨EventType.Deposit, a, n, v⟩ ⟨EventType.Withdrawal, a, n, v'⟩ a
      (by simp [Command.execute, Command.undo, add_event])
      (by simp [Command.execute, Command.undo, add_event])]
    simp [List.filter, matchesQuery, hv, hvv', netSum, eventNet]
  · rw [rebuild_balance_append_two s
      (Command.undo (Command.withdrawal a n) v'
        (Command.execute (Command.withdrawal a n) v s))
      ⟨EventType.Withdrawal, a, n, v⟩ ⟨EventType.Deposit, a, n, v'⟩ a
      (by simp [Command.execute, Command.undo, add_event])
      (by simp [Command.execute, Command.undo, add_event])]
    simp [List.filter, matchesQuery, hv, hvv', netSum, eventNet]

/-- Witness for C8 at the empty initial state with amount 7 and versions 1, 2. -/
theorem C8_witness :
    snapVersion initState 1 < 1 ∧ (1 : Nat) < 2
    ∧ ((rebuild_aggregate (Command.undo (Command.deposit 1 7) 2
          (Command.execute (Command.deposit 1 7) 1 initState)) 1).balance
        = (rebuild_aggregate initState 1).balance
      ∧ (rebuild_aggregate (Command.undo (Command.withdrawal 1 7) 2
          (Command.execute (Command.withdrawal 1 7) 1 initState)) 1).balance
        = (rebuild_aggregate initState 1).balance) :=
  ⟨by decide, by decide, C8_undo_inverts initState 1 7 1 2 (by decide) (by decide)⟩

/-- C2: when the withdrawal step succeeds and the deposit step fails, the
saga's compensation appends the compensating event before the entity write
raises, so after start_transfer escapes (by raising) the rebuilt balances of
both accounts equal their pre-saga values.  The snapshot hypotheses say the
stored snapshot versions do not exceed the version counter, which every
snapshot taken from a rebuilt aggregate of this system satisfies. -/
theorem C2_saga_compensation_restores_balances (s : SystemState)
    (from_account_id to_account_id : Nat) (amount : Int) (e : PyError)
    (hsf : snapVersion s from_account_id ≤ s.version_counter)
    (hst : snapVersion s to_account_id ≤ s.version_counter)
    (hok : amount ≤ (rebuild_aggregate s from_account_id).balance) :
    (∃ e2, (start_transfer s from_account_id to_account_id amount none (some e)).1
        = Except.error e2)
    ∧ (rebuild_aggregate
          (start_transfer s from_account_id to_account_id amount none (some e)).2
          from_account_id).balance
        = (rebuild_aggregate s from_account_id).balance
    ∧ (rebuild_aggregate
          (start_transfer s from_account_id to_account_id amount none (some e)).2
          to_account_id).balance
        = (rebuild_aggregate s to_account_id).balance := by
  have hcw : can_withdraw (rebuild_aggregate s from_account_id) amount = true := by
    simp [can_withdraw]
    omega
  have hexec : execute_command s (Command.withdrawal from_account_id amount)
      = (Except.ok (),
          (execute_command s (Command.withdrawal from_account_id amount)).2) := by
    simp [execute_command, hcw, execute_command_writes]
  have hsaga : start_transfer s from_account_id to_account_id amount none (some e)
      = undo_command
          (execute_command s (Command.withdrawal from_account_id amount)).2
          (Command.withdrawal from_account_id amount) := by
    simp only [start_transfer, sagaStep]
    rw [hexec]
    simp [undo_command]
  have hXev : (execute_command s (Command.withdrawal from_account_id amount)).2.events
      = s.events
        ++ [⟨EventType.Withdrawal, from_account_id, amount, s.version_counter + 1⟩] := by
    simp [execute_command, hcw, execute_command_writes, Command.execute, add_event,
      update_entity]
  have hXsn : (execute_command s (Command.withdrawal from_account_id amount)).2.snapshots
      = s.snapshots := by
    simp [execute_command, hcw, execute_command_writes, Command.execute, add_event,
      update_entity]
  have hXvc : (execute_command s
        (Command.withdrawal from_account_id amount)).2.version_counter
      = s.version_counter + 1 := by
    simp [execute_command, hcw, execute_command_writes, Command.execute, add_event,
      update_entity]
  have hev2 : (undo_command
        (execute_command s (Command.withdrawal from_account_id amount)).2
        (Command.withdrawal from_account_id amount)).2.events
      = s.events
        ++ [⟨EventType.Withdrawal, from_account_id, amount, s.version_counter + 1⟩,
            ⟨EventType.Deposit, from_account_id, amount, s.version_counter + 1 + 1⟩] := by
    simp [undo_command, Command.undo, add_event, hXev, hXvc]
  have hsn2 : (undo_command
        (execute_command s (Command.withdrawal from_account_id amount)).2
        (Command.withdrawal from_account_id amount)).2.snapshots
      = s.snapshots := by
    simp [undo_command, Command.undo, add_event, hXsn]
  rw [hsaga]
  refine ⟨⟨PyError.nameError, by simp [undo_command]⟩, ?_, ?_⟩
  · rw [rebuild_balance_append_two s
        (undo_command (execute_command s (Command.withdrawal from_account_id amount)).2
          (Command.withdrawal from_account_id amount)).2
        ⟨EventType.Withdrawal, from_account_id, amount, s.version_counter + 1⟩
        ⟨EventType.Deposit, from_account_id, amount, s.version_counter + 1 + 1⟩
        from_account_id hev2 hsn2]
    have h1 : snapVersion s from_account_id < s.version_counter + 1 := by omega
    have h2 : snapVersion s from_account_id < s.version_counter + 1 + 1 := by omega
    simp [List.filter, matchesQuery, h1, h2, netSum, eventNet]
  · rw [rebuild_balance_append_two s
        (undo_command (execute_command s (Command.withdrawal from_account_id amount)).2
          (Command.withdrawal from_account_id amount)).2
        ⟨EventType.Withdrawal, from_account_id, amount, s.version_counter + 1⟩
        ⟨EventType.Deposit, from_account_id, amount, s.version_counter + 1 + 1⟩
        to_account_id hev2 hsn2]
    by_cases hbf : from_account_id = to_account_id
    · have h1 : snapVersion s to_account_id < s.version_counter + 1 := by omega
      have h2 : snapVersion s to_account_id < s.version_counter + 1 + 1 := by omega
      simp [List.filter, matchesQuery, hbf, h1, h2, netSum, eventNet]
    · have hbeq : (from_account_id == to_account_id) = false := by
        simp [hbf]
      simp [List.filter, matchesQuery, hbeq, netSum]

/-- Witness for C2: a transfer of 50 out of account 1 (balance 100) into
account 2 whose deposit step fails with an injected error. -/
theorem C2_witness :
    snapVersion sC2 1 ≤ sC2.version_counter
    ∧ snapVersion sC2 2 ≤ sC2.version_counter
    ∧ (50 : Int) ≤ (rebuild_aggregate sC2 1).balance
    ∧ ((∃ e2, (start_transfer sC2 1 2 50 none (some (PyError.otherError 3))).1
          = Except.error e2)
       ∧ (rebuild_aggregate
            (start_transfer sC2 1 2 50 none (some (PyError.otherError 3))).2 1).balance
          = (rebuild_aggregate sC2 1).balance
       ∧ (rebuild_aggregate
            (start_transfer sC2 1 2 50 none (some (PyError.otherError 3))).2 2).balance
          = (rebuild_aggregate sC2 2).balance) :=
  ⟨by decide, by decide, by decide,
    C2_saga_compensation_restores_balances sC2 1 2 50 (PyError.otherError 3)
      (by decide) (by decide) (by decide)⟩

theorem foldl_apply_event_account_id (l : List Event) (acc : AccountAggregate) :
    (l.foldl apply_event acc).account_id = acc.account_id := by
  induction l generalizing acc with
  | nil => rfl
  | cons e t ih =>
    rw [List.foldl_cons, ih]
    cases h : e.event_type <;> simp [apply_event, h]

theorem rebuild_aggregate_account_id (s : SystemState) (a : Nat) :
    (rebuild_aggregate s a).account_id = a := by
  rw [rebuild_aggregate_spec, foldl_apply_event_account_id]
  cases h : get_snapshot s a <;> simp [snapAggregate, h, AccountAggregate.init]

/-- C6 counterexample: on a log whose two events for account 1 are stored out
of version order (the thin store never checks monotonicity), saving the
snapshot captured from the rebuilt aggregate changes the rebuilt balance: with
snapshot the rebuild re-applies the version-2 event and returns 17, while the
rebuild from zero with no snapshot returns 12, so the claimed equality fails. -/
theorem C6_counterexample :
    (rebuild_aggregate (save_snapshot sC6 (rebuild_aggregate sC6 1)) 1).balance
      ≠ (rebuild_aggregate sC6 1).balance := by
  decide

/-- C6 as amended: the snapshot-equivalence holds provided every already
logged event of the account has version at most the rebuilt aggregate's
version (true whenever the account's events appear in increasing version
order, as the CommandModel's global counter produces) and the events appended
after the snapshot carry versions above it. -/
theorem C6_snapshot_equivalence (s : SystemState) (a : Nat) (l2 : List Event)
    (hs : get_snapshot s a = none)
    (h1 : ∀ e ∈ s.events, e.id = a → e.version ≤ (rebuild_aggregate s a).version)
    (h2 : ∀ e ∈ l2, e.id = a → (rebuild_aggregate s a).version < e.version) :
    (rebuild_aggregate
        { save_snapshot s (rebuild_aggregate s a) with events := s.events ++ l2 }
        a).balance
      = (rebuild_aggregate { s with events := s.events ++ l2 } a).balance := by
  have hs' : lookupA s.snapshots a = none := hs
  have haid : (rebuild_aggregate s a).account_id = a := rebuild_aggregate_account_id s a
  have hsnapL : get_snapshot
      { save_snapshot s (rebuild_aggregate s a) with events := s.events ++ l2 } a
      = some ⟨(rebuild_aggregate s a).balance, (rebuild_aggregate s a).version⟩ := by
    simp [get_snapshot, save_snapshot, save_snapshot_store, haid]
    exact lookupA_insertA_self _ _ _
  have hnil : s.events.filter
      (matchesQuery a (rebuild_aggregate s a).version) = [] := by
    rw [List.filter_eq_nil_iff]
    intro e he
    by_cases hid : e.id = a
    · have hle := h1 e he hid
      simp [matchesQuery, hid]
      omega
    · simp [matchesQuery, hid]
  have hfilter : l2.filter (matchesQuery a (rebuild_aggregate s a).version)
      = l2.filter (matchesQuery a 0) := by
    apply List.filter_congr
    intro e he
    by_cases hid : e.id = a
    · have hv := h2 e he hid
      have h0 : 0 < e.version := by omega
      simp [matchesQuery, hid, hv, h0]
    · have hbeq : (e.id == a) = false := by
        simp [hid]
      simp [matchesQuery, hbeq]
  have hvL : snapVersion
      { save_snapshot s (rebuild_aggregate s a) with events := s.events ++ l2 } a
      = (rebuild_aggregate s a).version := by
    simp [snapVersion, hsnapL]
  have haL : snapAggregate
      { save_snapshot s (rebuild_aggregate s a) with events := s.events ++ l2 } a
      = ⟨a, (rebuild_aggregate s a).balance, (rebuild_aggregate s a).version⟩ := by
    simp [snapAggregate, hsnapL]
  have hvR : snapVersion { s with events := s.events ++ l2 } a = 0 := by
    simp [snapVersion, get_snapshot, hs']
  have haR : snapAggregate { s with events := s.events ++ l2 } a
      = AccountAggregate.init a := by
    simp [snapAggregate, get_snapshot, hs']
  have hgeL : get_events
      { save_snapshot s (rebuild_aggregate s a) with events := s.events ++ l2 } a
      (rebuild_aggregate s a).version
      = l2.filter (matchesQuery a 0) := by
    simp [get_events, save_snapshot, save_snapshot_store, List.filter_append, hnil,
      hfilter]
  have hgeR : get_events { s with events := s.events ++ l2 } a 0
      = s.events.filter (matchesQuery a 0) ++ l2.filter (matchesQuery a 0) := by
    simp [get_events, List.filter_append]
  have hB : (rebuild_aggregate s a).balance
      = netSum (s.events.filter (matchesQuery a 0)) := by
    rw [rebuild_aggregate_balance]
    simp [snapAggregate, snapVersion, get_snapshot, get_events, hs',
      AccountAggregate.init]
  rw [rebuild_aggregate_balance, rebuild_aggregate_balance, hvL, haL, hvR, haR,
    hgeL, hgeR, hB]
  simp [netSum, AccountAggregate.init]

/-- Witness for C6 as amended: one in-order event for account 1, snapshot
saved, one later event appended. -/
theorem C6_witness :
    get_snapshot ⟨[⟨EventType.Deposit, 1, 5, 1⟩], [], [], 1⟩ 1 = none
    ∧ (∀ e ∈ (⟨[⟨EventType.Deposit, 1, 5, 1⟩], [], [], 1⟩ : SystemState).events,
        e.id = 1 →
          e.version
            ≤ (rebuild_aggregate ⟨[⟨EventType.Deposit, 1, 5, 1⟩], [], [], 1⟩ 1).version)
    ∧ (∀ e ∈ [(⟨EventType.Deposit, 1, 3, 2⟩ : Event)], e.id = 1 →
          (rebuild_aggregate ⟨[⟨EventType.Deposit, 1, 5, 1⟩], [], [], 1⟩ 1).version
            < e.version)
    ∧ (rebuild_aggregate
        { save_snapshot ⟨[⟨EventType.Deposit, 1, 5, 1⟩], [], [], 1⟩
            (rebuild_aggregate ⟨[⟨EventType.Deposit, 1, 5, 1⟩], [], [], 1⟩ 1) with
          events := (⟨[⟨EventType.Deposit, 1, 5, 1⟩], [], [], 1⟩ : SystemState).events
            ++ [⟨EventType.Deposit, 1, 3, 2⟩] } 1).balance
      = (rebuild_aggregate
          { (⟨[⟨EventType.Deposit, 1, 5, 1⟩], [], [], 1⟩ : SystemState) with
            events := (⟨[⟨EventType.Deposit, 1, 5, 1⟩], [], [], 1⟩ : SystemState).events
              ++ [⟨EventType.Deposit, 1, 3, 2⟩] } 1).balance :=
  ⟨by decide, by decide, by decide,
    C6_snapshot_equivalence ⟨[⟨EventType.Deposit, 1, 5, 1⟩], [], [], 1⟩ 1
      [⟨EventType.Deposit, 1, 3, 2⟩] (by decide) (by decide) (by decide)⟩

theorem Command.forward_event_version (c : Command) (v : Nat) :
    (Command.forward_event c v).version = v := by
  cases c <;> rfl

theorem rebuild_balance_append_one (s s' : SystemState) (e : Event) (b : Nat)
    (hev : s'.events = s.events ++ [e]) (hsn : s'.snapshots = s.snapshots) :
    (rebuild_aggregate s' b).balance
      = (rebuild_aggregate s b).balance
        + netSum ([e].filter (matchesQuery b (snapVersion s b))) := by
  have hsnap : get_snapshot s' b = get_snapshot s b := by
    simp [get_snapshot, hsn]
  have hv : snapVersion s' b = snapVersion s b := by
    simp [snapVersion, hsnap]
  have ha : snapAggregate s' b = snapAggregate s b := by
    simp [snapAggregate, hsnap]
  rw [rebuild_aggregate_balance, rebuild_aggregate_balance, hv, ha]
  have hsplit : get_events s' b (snapVersion s b)
      = get_events s b (snapVersion s b)
        ++ [e].filter (matchesQuery b (snapVersion s b)) := by
    simp [get_events, hev, List.filter_append]
  rw [hsplit]
  simp [netSum]
  ring

theorem execute_command_error_state (s : SystemState) (c : Command) (e : PyError)
    (h : (execute_command s c).1 = Except.error e) :
    (execute_command s c).2 = s := by
  cases c with
  | deposit a n =>
    simp [execute_command, execute_command_writes] at h
  | withdrawal a n =>
    cases hcw : can_withdraw (rebuild_aggregate s a) n
    · simp [execute_command, hcw]
    · simp [execute_command, hcw, execute_command_writes] at h

theorem execute_command_ok_state (s : SystemState) (c : Command)
    (h : (execute_command s c).1 = Except.ok ()) :
    (execute_command s c).2 = (execute_command_writes s c).2 := by
  cases c with
  | deposit a n =>
    simp [execute_command]
  | withdrawal a n =>
    cases hcw : can_withdraw (rebuild_aggregate s a) n
    · simp [execute_command, hcw] at h
    · simp [execute_command, hcw]

theorem execute_writes_snapshots (s : SystemState) (c : Command) :
    (execute_command_writes s c).2.snapshots = s.snapshots := by
  simp [execute_command_writes, Command.execute_eq_add_event, add_event, update_entity]

theorem execute_writes_events (s : SystemState) (c : Command) :
    (execute_command_writes s c).2.events
      = s.events ++ [Command.forward_event c (s.version_counter + 1)] := by
  simp [execute_command_writes, Command.execute_eq_add_event, add_event, update_entity]

theorem execute_writes_balance (s : SystemState) (c : Command) (b : Nat)
    (hsnap : get_snapshot s b = none) :
    (rebuild_aggregate (execute_command_writes s c).2 b).balance
      = (rebuild_aggregate s b).balance + commandNet c b := by
  have hv0 : snapVersion s b = 0 := by
    simp [snapVersion, hsnap]
  rw [rebuild_balance_append_one s (execute_command_writes s c).2
      (Command.forward_event c (s.version_counter + 1)) b
      (execute_writes_events s c)
      (execute_writes_snapshots s c), hv0]
  have hpos : 0 < s.version_counter + 1 := Nat.succ_pos _
  cases c with
  | deposit a n =>
    by_cases hab : a = b
    · simp [Command.forward_event, List.filter, matchesQuery, hab, hpos, netSum,
        eventNet, commandNet]
    · have hbeq : (a == b) = false := by
        simp [hab]
      simp [Command.forward_event, List.filter, matchesQuery, hbeq, netSum,
        commandNet, hab]
  | withdrawal a n =>
    by_cases hab : a = b
    · simp [Command.forward_event, List.filter, matchesQuery, hab, hpos, netSum,
        eventNet, commandNet]
    · have hbeq : (a == b) = false := by
        simp [hab]
      simp [Command.forward_event, List.filter, matchesQuery, hbeq, netSum,
        commandNet, hab]

theorem runCommands_snapshots (cs : List Command) (s : SystemState)
    (h : s.snapshots = []) : (runCommands s cs).snapshots = [] := by
  induction cs generalizing s with
  | nil => exact h
  | cons c cs ih =>
    apply ih
    rcases execute_command_state s c with hs | hs
    · rw [hs]
      exact h
    · rw [hs]
      simp [update_entity, add_event]
      exact h

theorem runCommands_balance (cs : List Command) (s : SystemState) (b : Nat)
    (hsn : s.snapshots = []) (hev : ∀ e ∈ s.events, 0 < e.version) :
    (rebuild_aggregate (runCommands s cs) b).balance
      = (rebuild_aggregate s b).balance
        + (depositSum (acceptedFrom s cs) b - withdrawalSum (acceptedFrom s cs) b) := by
  induction cs generalizing s with
  | nil => simp [runCommands, acceptedFrom, depositSum, withdrawalSum]
  | cons c cs ih =>
    have hsnap : get_snapshot s b = none := by
      simp [get_snapshot, hsn, lookupA]
    cases hE : (execute_command s c).1 with
    | error e =>
      have h2 : (execute_command s c).2 = s := execute_command_error_state s c e hE
      have hpair : execute_command s c = (Except.error e, s) := by
        have hsplit : execute_command s c
            = ((execute_command s c).1, (execute_command s c).2) := rfl
        rw [hsplit, hE, h2]
      have hrec := ih s hsn hev
      simp only [runCommands, acceptedFrom, hpair]
      exact hrec
    | ok u =>
      cases u
      have h2 : (execute_command s c).2 = (execute_command_writes s c).2 :=
        execute_command_ok_state s c hE
      have hpair : execute_command s c
          = (Except.ok (), (execute_command_writes s c).2) := by
        have hsplit : execute_command s c
            = ((execute_command s c).1, (execute_command s c).2) := rfl
        rw [hsplit, hE, h2]
      have hsn2 : (execute_command_writes s c).2.snapshots = [] := by
        rw [execute_writes_snapshots]
        exact hsn
      have hev2 : ∀ e ∈ (execute_command_writes s c).2.events, 0 < e.version := by
        rw [execute_writes_events]
        intro e hee
        rcases List.mem_append.mp hee with hh | hh
        · exact hev e hh
        · rw [List.mem_singleton.mp hh, Command.forward_event_version]
          omega
      have hbal := execute_writes_balance s c b hsnap
      have hrec := ih (execute_command_writes s c).2 hsn2 hev2
      simp only [runCommands, acceptedFrom, hpair]
      rw [hrec, hbal]
      cases c with
      | deposit a n =>
        by_cases hab : a = b <;>
          simp [depositSum, withdrawalSum, commandNet, hab] <;> ring
      | withdrawal a n =>
        by_cases hab : a = b <;>
          simp [depositSum, withdrawalSum, commandNet, hab] <;> ring

/-- C5: from a fresh system, for every submitted command sequence the rebuilt
balance of an account equals the sum of accepted deposit amounts minus the
sum of accepted withdrawal amounts for that account, and immediately after
any accepted withdrawal the rebuilt balance of its account is not negative. -/
theorem C5_balance_invariant (cs : List Command) (a : Nat) :
    (rebuild_aggregate (runCommands initState cs) a).balance
      = depositSum (acceptedFrom initState cs) a
        - withdrawalSum (acceptedFrom initState cs) a
    ∧ ∀ (cs' : List Command) (n : Int),
        (execute_command (runCommands initState cs') (Command.withdrawal a n)).1
          = Except.ok () →
        0 ≤ (rebuild_aggregate
              (execute_command (runCommands initState cs')
                (Command.withdrawal a n)).2 a).balance := by
  have h0 : (rebuild_aggregate initState a).balance = 0 := by
    rw [rebuild_aggregate_balance]
    simp [snapAggregate, snapVersion, get_snapshot, initState, lookupA, get_events,
      netSum, AccountAggregate.init]
  constructor
  · have h := runCommands_balance cs initState a rfl
      (by intro e he; simp [initState] at he)
    rw [h, h0]
    ring
  · intro cs' n hok
    have hsn : (runCommands initState cs').snapshots = [] :=
      runCommands_snapshots cs' initState rfl
    have hsnap : get_snapshot (runCommands initState cs') a = none := by
      simp [get_snapshot, hsn, lookupA]
    have hcw : can_withdraw (rebuild_aggregate (runCommands initState cs') a) n
        = true := by
      cases hcc : can_withdraw (rebuild_aggregate (runCommands initState cs') a) n
      · exfalso
        simp [execute_command, hcc] at hok
      · rfl
    have hge : n ≤ (rebuild_aggregate (runCommands initState cs') a).balance := by
      simpa [can_withdraw] using hcw
    have h2 : (execute_command (runCommands initState cs')
          (Command.withdrawal a n)).2
        = (execute_command_writes (runCommands initState cs')
            (Command.withdrawal a n)).2 :=
      execute_command_ok_state _ _ hok
    rw [h2, execute_writes_balance _ _ _ hsnap]
    simp [commandNet]
    omega

/-- Witness for C5: deposit 5 then withdraw 3 on account 1; the final balance
is the accepted net sum, and the accepted withdrawal leaves it at 2, not
negative. -/
theorem C5_witness :
    ((rebuild_aggregate
        (runCommands initState [Command.deposit 1 5, Command.withdrawal 1 3]) 1).balance
      = depositSum
          (acceptedFrom initState [Command.deposit 1 5, Command.withdrawal 1 3]) 1
        - withdrawalSum
            (acceptedFrom initState [Command.deposit 1 5, Command.withdrawal 1 3]) 1)
    ∧ (execute_command (runCommands initState [Command.deposit 1 5])
          (Command.withdrawal 1 3)).1 = Except.ok ()
    ∧ 0 ≤ (rebuild_aggregate
            (execute_command (runCommands initState [Command.deposit 1 5])
              (Command.withdrawal 1 3)).2 1).balance :=
  ⟨(C5_balance_invariant [Command.deposit 1 5, Command.withdrawal 1 3] 1).1,
    by decide,
    (C5_balance_invariant [] 1).2 [Command.deposit 1 5] 3 (by decide)⟩
